import Mathlib

/-!
# Verification of the clustering compaction engine

Shallow embedding of `internal/datanode/compactor/clustering_compactor.go`
(clustering compaction for a segmented columnar store) and proofs of the
specification's claims about it.

Conventions:
* Go `int64` values are embedded as `Int`; Go integer division truncates
  toward zero and panics on a zero divisor, embedded as `goIntDiv` returning
  `Option Int`.
* Go slices are embedded as `List`; a `nil` slice is `[]`; Go maps keyed by
  segment ids are embedded as functions or association lists as noted at each
  definition.
-/

namespace ClusteringCompaction

/-! ## Scalar bucketing (`generatedScalarPlan`) -/

/-- State of the bucketing loop of `generatedScalarPlan`:
`(buckets, currentBucket, currentBucketSize)`. -/
abbrev ScalarPlanState (K : Type) := List (List K) × List K × Int

/-- One iteration of the loop body of `generatedScalarPlan`
(clustering_compactor.go, lines 1256-1279), translated branch by branch. -/
def scalarPlanStep {K : Type} (maxRows preferRows : Int) (dict : K → Int)
    (st : ScalarPlanState K) (key : K) : ScalarPlanState K :=
  let buckets := st.1
  let currentBucket := st.2.1
  let currentBucketSize := st.2.2
  if dict key > preferRows then
    if currentBucket.isEmpty then
      (buckets ++ [[key]], currentBucket, currentBucketSize)
    else
      (buckets ++ [currentBucket] ++ [[key]], [], 0)
  else if currentBucketSize + dict key > maxRows then
    (buckets ++ [currentBucket], [key], dict key)
  else if currentBucketSize + dict key > preferRows then
    (buckets ++ [currentBucket ++ [key]], [], 0)
  else
    (buckets, currentBucket ++ [key], currentBucketSize + dict key)

/-- Embedding of `generatedScalarPlan` (clustering_compactor.go, lines 1253-1282): scan the
sorted keys, then always emit the final running bucket. -/
def generatedScalarPlan {K : Type} (maxRows preferRows : Int) (keys : List K)
    (dict : K → Int) : List (List K) :=
  let st := keys.foldl (scalarPlanStep maxRows preferRows dict) ([], [], 0)
  st.1 ++ [st.2.1]

/-- Modelled from the spec: one step of the scalar bucketing algorithm as the
specification words it (claim C3) — a key whose count exceeds the preferred
size becomes its own singleton bucket after closing any accumulating bucket;
a key that would overflow the max size closes the current bucket and starts a
new one with that key; a key that would overflow the preferred size is
appended and the bucket closed, restarting empty; otherwise the key is
appended. -/
def scalarBucketingSpecStep {K : Type} (maxRows preferRows : Int) (dict : K → Int)
    (st : ScalarPlanState K) (key : K) : ScalarPlanState K :=
  let buckets := st.1
  let currentBucket := st.2.1
  let currentBucketSize := st.2.2
  if dict key > preferRows then
    ((if currentBucket.isEmpty then buckets else buckets ++ [currentBucket]) ++ [[key]], [], 0)
  else if currentBucketSize + dict key > maxRows then
    (buckets ++ [currentBucket], [key], dict key)
  else if currentBucketSize + dict key > preferRows then
    (buckets ++ [currentBucket ++ [key]], [], 0)
  else
    (buckets, currentBucket ++ [key], currentBucketSize + dict key)

/-- Modelled from the spec: the full scalar bucketing algorithm as the
specification words it, including the final (possibly empty) bucket. -/
def scalarBucketingSpec {K : Type} (maxRows preferRows : Int) (keys : List K)
    (dict : K → Int) : List (List K) :=
  let st := keys.foldl (scalarBucketingSpecStep maxRows preferRows dict) ([], [], 0)
  st.1 ++ [st.2.1]

lemma scalarPlan_foldl_agree {K : Type} (maxRows preferRows : Int) (dict : K → Int) :
    ∀ (keys : List K) (buckets : List (List K)) (cur : List K) (size : Int),
      (cur = [] → size = 0) →
      keys.foldl (scalarPlanStep maxRows preferRows dict) (buckets, cur, size)
        = keys.foldl (scalarBucketingSpecStep maxRows preferRows dict) (buckets, cur, size) := by
  intro keys
  induction keys with
  | nil => intro buckets cur size h; rfl
  | cons key rest ih =>
    intro buckets cur size h
    simp only [List.foldl_cons]
    by_cases h1 : dict key > preferRows
    · by_cases h2 : cur.isEmpty
      · have hcur : cur = [] := by simpa [List.isEmpty_iff] using h2
        have hsize : size = 0 := h hcur
        subst hcur; subst hsize
        simp only [scalarPlanStep, scalarBucketingSpecStep, if_pos h1, List.isEmpty_nil,
          if_pos, List.nil_append]
        exact ih _ _ _ (fun _ => rfl)
      · simp only [scalarPlanStep, scalarBucketingSpecStep, if_pos h1, if_neg h2, Bool.false_eq_true]
        exact ih _ _ _ (fun _ => rfl)
    · by_cases h2 : size + dict key > maxRows
      · simp only [scalarPlanStep, scalarBucketingSpecStep, if_neg h1, if_pos h2]
        refine ih _ _ _ (fun hk => ?_)
        simp at hk
      · by_cases h3 : size + dict key > preferRows
        · simp only [scalarPlanStep, scalarBucketingSpecStep, if_neg h1, if_neg h2, if_pos h3]
          exact ih _ _ _ (fun _ => rfl)
        · simp only [scalarPlanStep, scalarBucketingSpecStep, if_neg h1, if_neg h2, if_neg h3]
          refine ih _ _ _ (fun hk => ?_)
          simp at hk

/-- C3: the scalar bucketing function, scanning sorted keys sequentially,
behaves exactly as the specification describes on every key list and count
dictionary: singleton buckets for counts exceeding `preferRows` (closing any
accumulating bucket first), closing on `maxRows` overflow with the key opening
the next bucket, closing after appending on `preferRows` overflow, appending
otherwise, and always emitting the final (possibly empty) running bucket. -/
theorem generatedScalarPlan_matches_spec {K : Type} (maxRows preferRows : Int)
    (keys : List K) (dict : K → Int) :
    generatedScalarPlan maxRows preferRows keys dict
      = scalarBucketingSpec maxRows preferRows keys dict := by
  unfold generatedScalarPlan scalarBucketingSpec
  rw [scalarPlan_foldl_agree maxRows preferRows dict keys [] [] 0 (fun _ => rfl)]

/-- Count dictionary of the C4 scenario: three distinct keys with occurrence
counts 10, 10, 80. -/
def dictC4 : Nat → Int := fun k => if k == 2 then 80 else 10

/-- C3 witness: the code bucketing and the specification bucketing coincide
on a concrete input. -/
theorem generatedScalarPlan_matches_spec_witness :
    generatedScalarPlan 50 40 [0, 1, 2] dictC4
      = scalarBucketingSpec 50 40 [0, 1, 2] dictC4 :=
  generatedScalarPlan_matches_spec 50 40 [0, 1, 2] dictC4

/-- Embedding of the buffer-creation loop of `getScalarAnalyzeResult`
(clustering_compactor.go, lines 311-356): one `ClusterBuffer` is created per
bucket — including empty buckets — plus one extra buffer when null keys
exist. -/
def scalarClusterBufferCount {K : Type} (buckets : List (List K)) (containsNull : Bool) : Nat :=
  buckets.length + (if containsNull then 1 else 0)

/-- C4 counterexample: with sorted keys of counts {10, 10, 80}, maxRows = 50
and preferRows = 40, the bucketing emits a trailing empty third bucket, so the
result is not the claimed two buckets and the analyze stage creates three
cluster buffers, not two. -/
theorem scalarPlan_scenario_has_empty_trailing_bucket :
    generatedScalarPlan 50 40 [0, 1, 2] dictC4 = [[0, 1], [2], []] ∧
    generatedScalarPlan 50 40 [0, 1, 2] dictC4 ≠ [[0, 1], [2]] ∧
    scalarClusterBufferCount (generatedScalarPlan 50 40 [0, 1, 2] dictC4) false = 3 := by
  refine ⟨by decide, by decide, by decide⟩

/-- C4 amended: for the scenario with 3 sorted scalar values of counts
{10, 10, 80}, maxRows = 50 and preferRows = 40 (no null keys), the bucketing
produces the buckets {v1,v2}, {v3} and one trailing empty bucket, and the
analyze stage therefore creates exactly 3 cluster buffers. -/
theorem scalarPlan_scenario_buckets :
    generatedScalarPlan 50 40 [0, 1, 2] dictC4 = [[0, 1], [2], []] ∧
    scalarClusterBufferCount (generatedScalarPlan 50 40 [0, 1, 2] dictC4) false = 3 := by
  refine ⟨by decide, by decide⟩

/-! ## Buffer-count policies and `splitCentroids` -/

/-- The `expectedBinlogSize` constant (clustering_compactor.go, line 64). -/
def expectedBinlogSize : Int := 16 * 1024 * 1024

/-- Go integer division: truncates toward zero; a zero divisor is a runtime
panic, embedded as `none`. -/
def goIntDiv (a b : Int) : Option Int :=
  if b = 0 then none else some (a.tdiv b)

/-- Embedding of `splitCentroids` (clustering_compactor.go, lines 367-383): for
`num <= 0` it returns `nil, nil` (no error); otherwise it distributes the
centroid at position `i` to group `i % num` and records `i -> group` in the
index map (embedded as an association list in insertion order). -/
def splitCentroidsStep {α : Type} (n : Nat)
    (st : List (List α) × List (Nat × Nat)) (p : Nat × α) :
    List (List α) × List (Nat × Nat) :=
  let group := p.1 % n
  (st.1.set group (st.1.getD group [] ++ [p.2]), st.2 ++ [(p.1, group)])

def splitCentroids {α : Type} (centroids : List α) (num : Int) :
    List (List α) × List (Nat × Nat) :=
  if num ≤ 0 then ([], [])
  else
    centroids.enum.foldl (splitCentroidsStep num.toNat) (List.replicate num.toNat [], [])

/-- Embedding of `switchPolicyForVectorPlan` (clustering_compactor.go, lines 423-430)
followed by the group construction of `generatedVectorPlan`: the buffer count
is min(number of centroids, memory-derived count) and the centroids are split
into that many round-robin groups. The external stats/writer construction of
`generatedVectorPlan` is not modelled; the function has no failure outcome for
a non-positive buffer count. -/
def switchPolicyForVectorPlan {α : Type} (memoryBufferSize : Int)
    (centroids : List α) : List (List α) × List (Nat × Nat) :=
  let bufferNum : Int := centroids.length
  let bufferNumByMemory : Int := memoryBufferSize.tdiv expectedBinlogSize
  let bufferNum := if bufferNumByMemory < bufferNum then bufferNumByMemory else bufferNum
  splitCentroids centroids bufferNum

/-- Embedding of `switchPolicyForScalarPlan` (clustering_compactor.go, lines 1284-1296).
`preferRatioApply` stands for the external
`int64(float64(maxRows) * ClusteringCompactionPreferSegmentSizeRatio)`
computation (configured ratio, float arithmetic). The two Go divisions are
embedded with `goIntDiv`, so `none` is a division-by-zero runtime panic. -/
def switchPolicyForScalarPlan {K : Type} (memoryBufferSize maxSegmentRows
    preferSegmentRows totalRows : Int) (preferRatioApply : Int → Int)
    (keys : List K) (dict : K → Int) : Option (List (List K)) :=
  match goIntDiv totalRows maxSegmentRows with
  | none => none
  | some bufferNumBySegmentMaxRows =>
    let bufferNumByMemory := memoryBufferSize.tdiv expectedBinlogSize
    if bufferNumByMemory > bufferNumBySegmentMaxRows then
      some (generatedScalarPlan maxSegmentRows preferSegmentRows keys dict)
    else
      match goIntDiv totalRows bufferNumByMemory with
      | none => none
      | some maxRows =>
        some (generatedScalarPlan maxRows (preferRatioApply maxRows) keys dict)

/-- C5 counterexample: with a memory buffer below one binlog size the computed
buffer count is 0, yet the vector path returns empty groups with no error
(planning succeeds with zero cluster buffers) and the scalar path hits a
division-by-zero runtime panic (`none`) — neither path fails with an
illegal-plan error. -/
theorem nonpositive_buffer_count_not_illegal_plan :
    switchPolicyForVectorPlan 0 ([7, 7, 7, 7] : List Nat) = ([], []) ∧
    splitCentroids ([7, 7, 7, 7] : List Nat) 0 = ([], []) ∧
    switchPolicyForScalarPlan 0 5 4 10 (fun x => x) [0, 1, 2] dictC4 = none := by
  refine ⟨by decide, by decide, by decide⟩

/-- C5 amended: if the computed cluster-buffer count is non-positive, the
scalar path panics with a division by zero when deriving the per-buffer row
budget (it does not return an illegal-plan error), and the vector path's
`splitCentroids` silently returns `nil, nil`, so vector assignment planning
succeeds with zero cluster buffers instead of failing. -/
theorem nonpositive_buffer_count_behavior :
    (∀ (memoryBufferSize maxSegmentRows preferSegmentRows totalRows : Int)
       (f : Int → Int) (keys : List Nat) (dict : Nat → Int),
       memoryBufferSize.tdiv expectedBinlogSize = 0 →
       maxSegmentRows ≠ 0 →
       0 ≤ totalRows.tdiv maxSegmentRows →
       switchPolicyForScalarPlan memoryBufferSize maxSegmentRows
         preferSegmentRows totalRows f keys dict = none) ∧
    (∀ (centroids : List Nat) (num : Int), num ≤ 0 →
       splitCentroids centroids num = ([], [])) ∧
    (∀ (centroids : List Nat) (memoryBufferSize : Int),
       memoryBufferSize.tdiv expectedBinlogSize ≤ 0 → centroids ≠ [] →
       switchPolicyForVectorPlan memoryBufferSize centroids = ([], [])) := by
  refine ⟨?_, ?_, ?_⟩
  · intro mem maxSeg prefSeg totalRows f keys dict hmem hmax htot
    unfold switchPolicyForScalarPlan goIntDiv
    rw [if_neg hmax]
    simp only [hmem]
    have hgt : ¬ ((0 : Int) > totalRows.tdiv maxSeg) := not_lt.mpr htot
    rw [if_neg hgt]
    simp
  · intro centroids num hnum
    unfold splitCentroids
    rw [if_pos hnum]
  · intro centroids mem hmem hne
    unfold switchPolicyForVectorPlan
    have hlen : (0 : Int) < centroids.length := by
      have : centroids.length ≠ 0 := fun h => hne (List.length_eq_zero.mp h)
      exact_mod_cast Nat.pos_of_ne_zero this
    have hlt : mem.tdiv expectedBinlogSize < (centroids.length : Int) :=
      lt_of_le_of_lt hmem hlen
    simp only [if_pos hlt]
    unfold splitCentroids
    rw [if_pos hmem]

/-- C5 amended witness: the amended behavior at a concrete configuration. -/
theorem nonpositive_buffer_count_behavior_witness :
    switchPolicyForScalarPlan 0 5 4 10 (fun x => x) [0, 1, 2] dictC4 = none ∧
    splitCentroids ([7, 7, 7, 7] : List Nat) (-1) = ([], []) ∧
    switchPolicyForVectorPlan 0 ([7, 7, 7, 7] : List Nat) = ([], []) :=
  ⟨nonpositive_buffer_count_behavior.1 0 5 4 10 (fun x => x) [0, 1, 2] dictC4
      (by decide) (by decide) (by decide),
   nonpositive_buffer_count_behavior.2.1 [7, 7, 7, 7] (-1) (by decide),
   nonpositive_buffer_count_behavior.2.2 [7, 7, 7, 7] 0 (by decide) (by decide)⟩

lemma getD_replicate_nil {α : Type} (n g : Nat) :
    (List.replicate n ([] : List α)).getD g [] = [] := by
  rcases Nat.lt_or_ge g n with h | h
  · rw [List.getD_eq_getElem?_getD, List.getElem?_eq_getElem (by simpa using h)]
    simp
  · rw [List.getD_eq_getElem?_getD, List.getElem?_eq_none (by simpa using h)]
    rfl

lemma splitCentroids_foldl {α : Type} (n : Nat) (hn : 0 < n) :
    ∀ (l : List (Nat × α)) (acc1 : List (List α)) (acc2 : List (Nat × Nat)),
      acc1.length = n →
      (l.foldl (splitCentroidsStep n) (acc1, acc2)).1.length = n ∧
      (∀ g, g < n →
        (l.foldl (splitCentroidsStep n) (acc1, acc2)).1.getD g []
          = acc1.getD g [] ++ (l.filter (fun p => p.1 % n == g)).map Prod.snd) ∧
      (l.foldl (splitCentroidsStep n) (acc1, acc2)).2
        = acc2 ++ l.map (fun p => (p.1, p.1 % n)) := by
  intro l
  induction l with
  | nil => intro acc1 acc2 h1; refine ⟨h1, fun g _ => by simp, by simp⟩
  | cons p l ih =>
    intro acc1 acc2 h1
    have hmod : p.1 % n < acc1.length := by rw [h1]; exact Nat.mod_lt _ hn
    have hstep : splitCentroidsStep n (acc1, acc2) p
        = (acc1.set (p.1 % n) (acc1.getD (p.1 % n) [] ++ [p.2]),
           acc2 ++ [(p.1, p.1 % n)]) := rfl
    have hlen : (acc1.set (p.1 % n) (acc1.getD (p.1 % n) [] ++ [p.2])).length = n := by
      simpa using h1
    obtain ⟨ihlen, ihgetD, ihsnd⟩ :=
      ih (acc1.set (p.1 % n) (acc1.getD (p.1 % n) [] ++ [p.2]))
        (acc2 ++ [(p.1, p.1 % n)]) hlen
    refine ⟨?_, ?_, ?_⟩
    · simpa [hstep] using ihlen
    · intro g hg
      rw [List.foldl_cons, hstep, ihgetD g hg, List.filter_cons]
      by_cases hpg : p.1 % n = g
      · subst hpg
        have hset : (acc1.set (p.1 % n) (acc1.getD (p.1 % n) [] ++ [p.2])).getD (p.1 % n) []
            = acc1.getD (p.1 % n) [] ++ [p.2] := by
          rw [List.getD_eq_getElem?_getD, List.getElem?_set]
          simp [hmod, List.getD_eq_getElem?_getD]
        rw [hset]
        simp [List.append_assoc]
      · have hset : (acc1.set (p.1 % n) (acc1.getD (p.1 % n) [] ++ [p.2])).getD g []
            = acc1.getD g [] := by
          rw [List.getD_eq_getElem?_getD, List.getElem?_set, if_neg hpg,
            ← List.getD_eq_getElem?_getD]
        have hbeq : (p.1 % n == g) = false := by simpa using hpg
        rw [hset, hbeq]
        simp
    · rw [List.foldl_cons, hstep, ihsnd]
      simp

/-- C8: for every centroid list and every `num >= 1`, `splitCentroids`
produces exactly `num` groups, assigns the centroid at position `i` to group
`i mod num` (group `g` holds, in order, exactly the centroids at positions
congruent to `g`), and the index map sends each position `i < length` to
exactly the group `i mod num`, so the groups partition the index set. -/
theorem splitCentroids_round_robin {α : Type} (cs : List α) (num : Int)
    (h : 1 ≤ num) :
    (splitCentroids cs num).1.length = num.toNat ∧
    (splitCentroids cs num).1
      = (List.range num.toNat).map
          (fun g => (cs.enum.filter (fun p => p.1 % num.toNat == g)).map Prod.snd) ∧
    (splitCentroids cs num).2
      = (List.range cs.length).map (fun i => (i, i % num.toNat)) ∧
    (∀ i g : Nat, (i, g) ∈ (splitCentroids cs num).2 ↔ i < cs.length ∧ g = i % num.toNat) := by
  have hn : 0 < num.toNat := by omega
  have hne : ¬ num ≤ 0 := by omega
  have hrepl : (List.replicate num.toNat ([] : List α)).length = num.toNat := by simp
  obtain ⟨hlen, hgetD, hsnd⟩ :=
    splitCentroids_foldl num.toNat hn cs.enum (List.replicate num.toNat []) [] hrepl
  have hunfold : splitCentroids cs num
      = cs.enum.foldl (splitCentroidsStep num.toNat) (List.replicate num.toNat [], []) := by
    unfold splitCentroids
    rw [if_neg hne]
  have hsnd' : (splitCentroids cs num).2
      = (List.range cs.length).map (fun i => (i, i % num.toNat)) := by
    rw [hunfold, hsnd, List.nil_append, ← List.enum_map_fst cs, List.map_map]
    rfl
  refine ⟨by rw [hunfold]; exact hlen, ?_, hsnd', ?_⟩
  · rw [hunfold]
    refine List.ext_getElem (by simp [hlen]) ?_
    intro g hg1 hg2
    have hgn : g < num.toNat := by simpa [hlen] using hg1
    have := hgetD g hgn
    rw [getD_replicate_nil, List.nil_append] at this
    have hget : (cs.enum.foldl (splitCentroidsStep num.toNat)
        (List.replicate num.toNat [], [])).1[g]
        = (cs.enum.foldl (splitCentroidsStep num.toNat)
            (List.replicate num.toNat [], [])).1.getD g [] := by
      rw [List.getD_eq_getElem?_getD, List.getElem?_eq_getElem hg1]
      rfl
    rw [hget, this]
    simp
  · intro i g
    rw [hsnd']
    simp only [List.mem_map, List.mem_range, Prod.mk.injEq]
    constructor
    · rintro ⟨j, hj, hji, hjg⟩
      exact ⟨hji ▸ hj, by rw [← hji, ← hjg]⟩
    · rintro ⟨hi, hg⟩
      exact ⟨i, hi, rfl, hg.symm⟩

/-- C8 witness: with 4 centroids and `num = 2`, `splitCentroids` produces
exactly 2 groups of 2 centroids each, round-robin by index. -/
theorem splitCentroids_round_robin_witness :
    (splitCentroids ([10, 11, 12, 13] : List Nat) 2).1.length = (2 : Int).toNat ∧
    (splitCentroids ([10, 11, 12, 13] : List Nat) 2).1 = [[10, 12], [11, 13]] ∧
    (splitCentroids ([10, 11, 12, 13] : List Nat) 2).2
      = [(0, 0), (1, 1), (2, 0), (3, 1)] :=
  ⟨(splitCentroids_round_robin ([10, 11, 12, 13] : List Nat) 2 (by decide)).1,
   by decide, by decide⟩

/-! ## Plan validation (`init`) -/

/-- Schema field data types relevant to the compactor (schemapb.DataType). -/
inductive DataType where
  | boolean | int8 | int16 | int32 | int64 | floatData | doubleData
  | varChar | jsonData | arrayData
  | floatVector | binaryVector | float16Vector | bfloat16Vector | sparseFloatVector
deriving DecidableEq, Repr

/-- Modelled from the spec: `typeutil.IsPrimaryFieldType` — a primary key is
an Int64 or a VarChar field (external utility package). -/
def isPrimaryFieldType : DataType → Bool
  | .int64 => true
  | .varChar => true
  | _ => false

/-- Modelled from the spec: `typeutil.IsVectorType` — the vector data-type
family (external utility package). -/
def isVectorType : DataType → Bool
  | .floatVector | .binaryVector | .float16Vector | .bfloat16Vector
  | .sparseFloatVector => true
  | _ => false

structure FieldSchema where
  fieldID : Int
  isPrimaryKey : Bool
  dataType : DataType
deriving DecidableEq, Repr

inductive FunctionType where
  | bm25 | textEmbedding
deriving DecidableEq, Repr

structure FunctionSchema where
  functionType : FunctionType
  outputFieldIds : List Int
deriving DecidableEq, Repr

structure CollectionSchema where
  fields : List FieldSchema
  functions : List FunctionSchema
deriving DecidableEq, Repr

inductive CompactionType where
  | clusteringCompaction | mixCompaction | level0DeleteCompaction
deriving DecidableEq, Repr

structure SegmentBinlogs where
  segmentID : Int
  collectionID : Int
  partitionID : Int
deriving DecidableEq, Repr

structure CompactionPlan where
  planType : CompactionType
  segmentBinlogs : List SegmentBinlogs
  schema : Option CollectionSchema
  clusteringKeyFieldID : Int
deriving DecidableEq, Repr

/-- Ways `init` can fail: a returned illegal-plan error, a runtime
index-out-of-range panic (indexing `GetOutputFieldIds()[0]` of a BM25
function with no output fields, lines 218-222), or a runtime nil-pointer
panic (dereferencing `t.clusteringKeyField` at line 225 when unresolved). -/
inductive InitFailure where
  | illegalPlan (msg : String)
  | indexPanic
  | nilPanic
deriving DecidableEq, Repr

/-- Task state established by a successful `init`. -/
structure InitState where
  collectionID : Int
  partitionID : Int
  primaryKeyField : Option FieldSchema
  clusteringKeyField : FieldSchema
  isVectorClusteringKey : Bool
  bm25FieldIds : List Int
deriving DecidableEq, Repr

/-- The field loop of `init` (lines 209-216): the last field that is a
primary key with id >= 100 and a primary-capable type wins. -/
def resolvePrimaryKeyField (fields : List FieldSchema) : Option FieldSchema :=
  fields.foldl
    (fun acc f =>
      if f.isPrimaryKey && decide (f.fieldID ≥ 100) && isPrimaryFieldType f.dataType
      then some f else acc)
    none

/-- The field loop of `init` (lines 209-216): the last field whose id equals
the plan's clustering-key field id wins. -/
def resolveClusteringKeyField (fields : List FieldSchema) (ckID : Int) :
    Option FieldSchema :=
  fields.foldl (fun acc f => if f.fieldID = ckID then some f else acc) none

/-- The function loop of `init` (lines 218-222): for every BM25 function the
Go code appends `function.GetOutputFieldIds()[0]`, which panics with an
index-out-of-range error when the output-field list is empty — embedded as
`none` (the loop stops at the first such function, so later iterations are
irrelevant). -/
def collectBM25FieldIds (functions : List FunctionSchema) : Option (List Int) :=
  functions.foldl
    (fun acc fn =>
      match acc with
      | none => none
      | some l =>
        if fn.functionType = .bm25 then
          match fn.outputFieldIds with
          | [] => none
          | x :: _ => some (l ++ [x])
        else some l)
    (some [])

/-- Embedding of `init` (clustering_compactor.go, lines 189-233): validates the plan and
establishes the task state. Allocator construction, memory sizing and worker
pools are external and not modelled. The function loop runs after the field
loop and before line 225, so a BM25 function with an empty output-field list
panics (`InitFailure.indexPanic`) before an unresolved clustering-key field
makes line 225 dereference a nil pointer (`InitFailure.nilPanic`); an
unresolved primary-key field is not checked and init succeeds with
`primaryKeyField = none`. -/
def init (plan : CompactionPlan) : Except InitFailure InitState :=
  if plan.planType ≠ .clusteringCompaction then
    .error (.illegalPlan "illegal compaction type")
  else
    match plan.segmentBinlogs with
    | [] => .error (.illegalPlan "empty segment binlogs")
    | seg0 :: _ =>
      match plan.schema with
      | none => .error (.illegalPlan "empty schema in compactionPlan")
      | some schema =>
        match collectBM25FieldIds schema.functions with
        | none => .error .indexPanic
        | some bm25 =>
          match resolveClusteringKeyField schema.fields plan.clusteringKeyFieldID with
          | none => .error .nilPanic
          | some ck =>
            .ok { collectionID := seg0.collectionID
                  partitionID := seg0.partitionID
                  primaryKeyField := resolvePrimaryKeyField schema.fields
                  clusteringKeyField := ck
                  isVectorClusteringKey := isVectorType ck.dataType
                  bm25FieldIds := bm25 }

/-- A plan that is valid except that no field qualifies as a primary key. -/
def planNoPK : CompactionPlan :=
  { planType := .clusteringCompaction
    segmentBinlogs := [{ segmentID := 1, collectionID := 2, partitionID := 3 }]
    schema := some { fields := [{ fieldID := 100, isPrimaryKey := false, dataType := .int64 },
                                { fieldID := 101, isPrimaryKey := false, dataType := .int64 }]
                     functions := [] }
    clusteringKeyFieldID := 101 }

/-- A plan that is valid except that the clustering-key field id matches no
schema field. -/
def planNoCK : CompactionPlan :=
  { planType := .clusteringCompaction
    segmentBinlogs := [{ segmentID := 1, collectionID := 2, partitionID := 3 }]
    schema := some { fields := [{ fieldID := 100, isPrimaryKey := true, dataType := .int64 }]
                     functions := [] }
    clusteringKeyFieldID := 999 }

/-- A plan that is valid except that its BM25 function has an empty
output-field list. -/
def planBM25Empty : CompactionPlan :=
  { planType := .clusteringCompaction
    segmentBinlogs := [{ segmentID := 1, collectionID := 2, partitionID := 3 }]
    schema := some { fields := [{ fieldID := 100, isPrimaryKey := true, dataType := .int64 },
                                { fieldID := 101, isPrimaryKey := false, dataType := .int64 }]
                     functions := [{ functionType := .bm25, outputFieldIds := [] }] }
    clusteringKeyFieldID := 101 }

/-- C6 counterexample: a plan whose primary-key field cannot be resolved is
accepted by `init` (no error at all), and a plan whose clustering-key field
cannot be resolved fails with a nil-pointer panic, not an illegal-plan
error. -/
theorem init_accepts_unresolvable_primary_key :
    init planNoPK
      = .ok { collectionID := 2, partitionID := 3, primaryKeyField := none
              clusteringKeyField := { fieldID := 101, isPrimaryKey := false, dataType := .int64 }
              isVectorClusteringKey := false, bm25FieldIds := [] } ∧
    init planNoCK = .error .nilPanic := by
  refine ⟨rfl, rfl⟩

/-- C6 amended: `init` rejects with an illegal-plan error, before performing
any compaction work, every plan whose compaction type is not
ClusteringCompaction, or whose segment-binlog list is empty, or whose schema
is absent; a BM25 function with an empty output-field list makes the function
loop panic with an index out of range; a plan whose clustering-key field
cannot be resolved fails with a nil-pointer panic rather than an illegal-plan
error; a plan whose primary-key field cannot be resolved is nevertheless
accepted by `init`. -/
theorem init_validation (plan : CompactionPlan) :
    (plan.planType ≠ .clusteringCompaction →
       init plan = .error (.illegalPlan "illegal compaction type")) ∧
    (plan.planType = .clusteringCompaction → plan.segmentBinlogs = [] →
       init plan = .error (.illegalPlan "empty segment binlogs")) ∧
    (plan.planType = .clusteringCompaction → plan.segmentBinlogs ≠ [] →
       plan.schema = none →
       init plan = .error (.illegalPlan "empty schema in compactionPlan")) ∧
    (∀ schema, plan.planType = .clusteringCompaction → plan.segmentBinlogs ≠ [] →
       plan.schema = some schema →
       collectBM25FieldIds schema.functions = none →
       init plan = .error .indexPanic) ∧
    (∀ schema bm25, plan.planType = .clusteringCompaction → plan.segmentBinlogs ≠ [] →
       plan.schema = some schema →
       collectBM25FieldIds schema.functions = some bm25 →
       resolveClusteringKeyField schema.fields plan.clusteringKeyFieldID = none →
       init plan = .error .nilPanic) ∧
    (∀ schema bm25 ck seg0 rest, plan.planType = .clusteringCompaction →
       plan.segmentBinlogs = seg0 :: rest → plan.schema = some schema →
       collectBM25FieldIds schema.functions = some bm25 →
       resolveClusteringKeyField schema.fields plan.clusteringKeyFieldID = some ck →
       init plan = .ok { collectionID := seg0.collectionID
                         partitionID := seg0.partitionID
                         primaryKeyField := resolvePrimaryKeyField schema.fields
                         clusteringKeyField := ck
                         isVectorClusteringKey := isVectorType ck.dataType
                         bm25FieldIds := bm25 }) := by
  refine ⟨?_, ?_, ?_, ?_, ?_, ?_⟩
  · intro h
    unfold init
    rw [if_pos h]
  · intro ht hseg
    unfold init
    rw [if_neg (by simp [ht]), hseg]
  · intro ht hseg hschema
    unfold init
    rw [if_neg (by simp [ht])]
    rcases hs : plan.segmentBinlogs with _ | ⟨seg0, rest⟩
    · exact absurd hs hseg
    · rw [hschema]
  · intro schema ht hseg hschema hbm
    unfold init
    rw [if_neg (by simp [ht])]
    rcases hs : plan.segmentBinlogs with _ | ⟨seg0, rest⟩
    · exact absurd hs hseg
    · rw [hschema]
      simp [hbm]
  · intro schema bm25 ht hseg hschema hbm hck
    unfold init
    rw [if_neg (by simp [ht])]
    rcases hs : plan.segmentBinlogs with _ | ⟨seg0, rest⟩
    · exact absurd hs hseg
    · rw [hschema]
      simp [hbm, hck]
  · intro schema bm25 ck seg0 rest ht hseg hschema hbm hck
    unfold init
    rw [if_neg (by simp [ht]), hseg, hschema]
    simp [hbm, hck]

/-- C6 amended witness: the amended behavior at concrete plans, including a
plan whose BM25 function has no output fields. -/
theorem init_validation_witness :
    init { planNoPK with planType := .mixCompaction }
        = .error (.illegalPlan "illegal compaction type") ∧
    init { planNoPK with segmentBinlogs := [] }
        = .error (.illegalPlan "empty segment binlogs") ∧
    init { planNoPK with schema := none }
        = .error (.illegalPlan "empty schema in compactionPlan") ∧
    init planBM25Empty = .error .indexPanic ∧
    init planNoCK = .error .nilPanic ∧
    init planNoPK
      = .ok { collectionID := 2, partitionID := 3, primaryKeyField := none
              clusteringKeyField := { fieldID := 101, isPrimaryKey := false, dataType := .int64 }
              isVectorClusteringKey := false, bm25FieldIds := [] } :=
  ⟨(init_validation { planNoPK with planType := .mixCompaction }).1 (by decide),
   (init_validation { planNoPK with segmentBinlogs := [] }).2.1 rfl rfl,
   (init_validation { planNoPK with schema := none }).2.2.1 rfl (by decide) rfl,
   (init_validation planBM25Empty).2.2.2.1
     { fields := [{ fieldID := 100, isPrimaryKey := true, dataType := .int64 },
                  { fieldID := 101, isPrimaryKey := false, dataType := .int64 }]
       functions := [{ functionType := .bm25, outputFieldIds := [] }] }
     rfl (by decide) rfl (by decide),
   (init_validation planNoCK).2.2.2.2.1
     { fields := [{ fieldID := 100, isPrimaryKey := true, dataType := .int64 }]
       functions := [] } [] rfl (by decide) rfl (by decide) (by decide),
   (init_validation planNoPK).2.2.2.2.2
     { fields := [{ fieldID := 100, isPrimaryKey := false, dataType := .int64 },
                  { fieldID := 101, isPrimaryKey := false, dataType := .int64 }]
       functions := [] } []
     { fieldID := 101, isPrimaryKey := false, dataType := .int64 }
     { segmentID := 1, collectionID := 2, partitionID := 3 } []
     rfl rfl rfl (by decide) (by decide)⟩

/-! ## `flushLargestBuffers`

The analyze stage creates cluster buffers with `id` equal to their position in
`t.clusterBuffers`, so buffer ids are modelled as list positions. A buffer
snapshot carries the quantities `flushLargestBuffers` reads: the current
writer's row count (`GetRowNum`), the current writer's written memory
(`WrittenMemorySize`) and the buffer's already-flushed memory
(`bufferMemorySize`). -/

structure BufferSnapshot where
  rowNum : Int
  writerMem : Int
  bufferMem : Int
deriving DecidableEq, Repr, Inhabited

/-- Embedding of `getBufferTotalUsedMemorySize` (clustering_compactor.go, lines 543-551). -/
def getBufferTotalUsedMemorySize (bufs : List BufferSnapshot) : Int :=
  bufs.foldl (fun acc b => acc + b.writerMem + b.bufferMem) 0

def rowNumAt (bufs : List BufferSnapshot) (i : Nat) : Int :=
  (bufs.getD i default).rowNum

def writerMemAt (bufs : List BufferSnapshot) (i : Nat) : Int :=
  (bufs.getD i default).writerMem

/-- The sort of `flushLargestBuffers` (lines 837-847): buffer ids ordered by
their writers' row counts, descending (the comparator indexes the row-count
slice by buffer id, which equals the buffer's position). -/
def sortBufferIDsByRowNum (bufs : List BufferSnapshot) : List Nat :=
  (List.range bufs.length).insertionSort (fun i j => rowNumAt bufs j ≤ rowNumAt bufs i)

/-- The visiting loop of `flushLargestBuffers` (lines 851-880): each visited
buffer has its writer retired and replaced (`refreshBufferWriter`) and the
retired writer's persistence submitted to the flush pool; the loop subtracts
the retired writer's written memory from the running total and breaks once the
total reaches the low watermark. The returned list is the visit order. -/
def flushLoop (bufs : List BufferSnapshot) (low : Int) : List Nat → Int → List Nat
  | [], _ => []
  | id :: rest, cur =>
    let cur' := cur - writerMemAt bufs id
    if cur' ≤ low then [id] else id :: flushLoop bufs low rest cur'

/-- Embedding of `flushLargestBuffers` (clustering_compactor.go, lines 823-887), as the
list of buffer ids it rotates and flushes, in order. Awaiting the submitted
futures and the flush-mutex try-lock are concurrency mechanics outside the
model. -/
def flushLargestBuffers (bufs : List BufferSnapshot) (low : Int) : List Nat :=
  let current := getBufferTotalUsedMemorySize bufs
  if current ≤ low then [] else flushLoop bufs low (sortBufferIDsByRowNum bufs) current

/-- Sum of the written memory of the first `m` visited buffers. -/
def takeMemSum (bufs : List BufferSnapshot) (ids : List Nat) (m : Nat) : Int :=
  ((ids.take m).map (writerMemAt bufs)).sum

lemma takeMemSum_zero (bufs : List BufferSnapshot) (ids : List Nat) :
    takeMemSum bufs ids 0 = 0 := rfl

lemma takeMemSum_cons_succ (bufs : List BufferSnapshot) (id : Nat) (rest : List Nat)
    (m : Nat) :
    takeMemSum bufs (id :: rest) (m + 1) = writerMemAt bufs id + takeMemSum bufs rest m := by
  simp [takeMemSum]

lemma flushLoop_spec (bufs : List BufferSnapshot) (low : Int) :
    ∀ (ids : List Nat) (cur : Int),
      (flushLoop bufs low ids cur = ids.take (flushLoop bufs low ids cur).length) ∧
      ((flushLoop bufs low ids cur).length = 0 ↔ ids = []) ∧
      (∀ m, 0 < m → m < (flushLoop bufs low ids cur).length →
          low < cur - takeMemSum bufs ids m) ∧
      ((flushLoop bufs low ids cur).length = ids.length ∨
          cur - takeMemSum bufs ids (flushLoop bufs low ids cur).length ≤ low) := by
  intro ids
  induction ids with
  | nil =>
    intro cur
    exact ⟨rfl, by simp [flushLoop], fun m hm hm2 => by simp [flushLoop] at hm2, Or.inl rfl⟩
  | cons id rest ih =>
    intro cur
    by_cases hstop : cur - writerMemAt bufs id ≤ low
    · have hres : flushLoop bufs low (id :: rest) cur = [id] := by
        simp [flushLoop, hstop]
      refine ⟨by rw [hres]; rfl, by rw [hres]; simp, ?_, ?_⟩
      · intro m hm hm2
        rw [hres] at hm2
        simp at hm2
        omega
      · right
        rw [hres]
        show cur - takeMemSum bufs (id :: rest) 1 ≤ low
        rw [show (1 : Nat) = 0 + 1 from rfl, takeMemSum_cons_succ, takeMemSum_zero]
        omega
    · obtain ⟨ih1, ih2, ih3, ih4⟩ := ih (cur - writerMemAt bufs id)
      have hres : flushLoop bufs low (id :: rest) cur
          = id :: flushLoop bufs low rest (cur - writerMemAt bufs id) := by
        simp [flushLoop, hstop]
      refine ⟨?_, by rw [hres]; simp, ?_, ?_⟩
      · rw [hres, List.length_cons, List.take_succ_cons]
        exact congrArg (id :: ·) ih1
      · intro m hm hm2
        obtain ⟨m', rfl⟩ : ∃ m', m = m' + 1 := ⟨m - 1, by omega⟩
        rw [takeMemSum_cons_succ]
        rw [hres, List.length_cons] at hm2
        rcases Nat.eq_zero_or_pos m' with hz | hpos
        · subst hz
          rw [takeMemSum_zero]
          omega
        · have := ih3 m' hpos (by omega)
          omega
      · rw [hres, List.length_cons]
        rcases ih4 with h | h
        · left; rw [h]; rfl
        · right
          rw [takeMemSum_cons_succ]
          omega

/-- C9: `flushLargestBuffers` is a no-op when the aggregate buffered memory is
at or below the low watermark; otherwise it visits buffers in descending order
of their current writers' row counts (the visit order is a prefix of the
descending sort of all buffer ids), rotating and flushing each visited buffer
while subtracting its writer's written memory from a running total, keeps
visiting exactly while the running total is above the low watermark, and stops
early or exhausts all buffers. -/
theorem flushLargestBuffers_behavior (bufs : List BufferSnapshot) (low : Int) :
    (getBufferTotalUsedMemorySize bufs ≤ low → flushLargestBuffers bufs low = []) ∧
    (low < getBufferTotalUsedMemorySize bufs →
      (flushLargestBuffers bufs low
         = (sortBufferIDsByRowNum bufs).take (flushLargestBuffers bufs low).length) ∧
      (sortBufferIDsByRowNum bufs).Perm (List.range bufs.length) ∧
      List.Pairwise (fun i j => rowNumAt bufs j ≤ rowNumAt bufs i)
        (sortBufferIDsByRowNum bufs) ∧
      (bufs ≠ [] → flushLargestBuffers bufs low ≠ []) ∧
      (∀ m, 0 < m → m < (flushLargestBuffers bufs low).length →
         low < getBufferTotalUsedMemorySize bufs
                 - takeMemSum bufs (sortBufferIDsByRowNum bufs) m) ∧
      ((flushLargestBuffers bufs low).length = bufs.length ∨
         getBufferTotalUsedMemorySize bufs
           - takeMemSum bufs (sortBufferIDsByRowNum bufs)
               (flushLargestBuffers bufs low).length ≤ low)) := by
  constructor
  · intro h
    unfold flushLargestBuffers
    rw [if_pos h]
  · intro h
    have hneg : ¬ getBufferTotalUsedMemorySize bufs ≤ low := not_le.mpr h
    have hres : flushLargestBuffers bufs low
        = flushLoop bufs low (sortBufferIDsByRowNum bufs)
            (getBufferTotalUsedMemorySize bufs) := by
      unfold flushLargestBuffers
      rw [if_neg hneg]
    obtain ⟨h1, h2, h3, h4⟩ :=
      flushLoop_spec bufs low (sortBufferIDsByRowNum bufs)
        (getBufferTotalUsedMemorySize bufs)
    have hperm : (sortBufferIDsByRowNum bufs).Perm (List.range bufs.length) :=
      List.perm_insertionSort _ _
    have hsorted : List.Pairwise (fun i j => rowNumAt bufs j ≤ rowNumAt bufs i)
        (sortBufferIDsByRowNum bufs) := by
      haveI : IsTotal Nat (fun i j => rowNumAt bufs j ≤ rowNumAt bufs i) :=
        ⟨fun a b => le_total (rowNumAt bufs b) (rowNumAt bufs a)⟩
      haveI : IsTrans Nat (fun i j => rowNumAt bufs j ≤ rowNumAt bufs i) :=
        ⟨fun a b c hab hbc => le_trans hbc hab⟩
      exact List.sorted_insertionSort _ (List.range bufs.length)
    refine ⟨by rw [hres]; exact h1, hperm, hsorted, ?_, ?_, ?_⟩
    · intro hne hresnil
      have hlen0 : (flushLargestBuffers bufs low).length = 0 := by
        rw [hresnil]; rfl
      rw [hres] at hlen0
      have hsortnil := h2.mp hlen0
      have : (List.range bufs.length).length = 0 := by
        rw [← hperm.length_eq, hsortnil]
        rfl
      simp at this
      exact hne this
    · intro m hm hm2
      rw [hres] at hm2
      exact h3 m hm hm2
    · rw [hres]
      rcases h4 with h4 | h4
      · left
        rw [h4, hperm.length_eq]
        simp
      · right
        exact h4

/-- Concrete buffer set for the C9 witness. -/
def demoBufs : List BufferSnapshot :=
  [{ rowNum := 5, writerMem := 10, bufferMem := 0 },
   { rowNum := 7, writerMem := 20, bufferMem := 0 },
   { rowNum := 1, writerMem := 3, bufferMem := 0 }]

/-- C9 witness: on a concrete buffer set with aggregate memory 33, a low
watermark of 40 makes the pass a no-op, while a low watermark of 5 visits the
two largest buffers (ids 1 then 0) and stops before the smallest. -/
theorem flushLargestBuffers_behavior_witness :
    getBufferTotalUsedMemorySize demoBufs = 33 ∧
    flushLargestBuffers demoBufs 40 = [] ∧
    flushLargestBuffers demoBufs 5 = [1, 0] ∧
    (5 : Int) < getBufferTotalUsedMemorySize demoBufs ∧
    flushLargestBuffers demoBufs 5
      = (sortBufferIDsByRowNum demoBufs).take (flushLargestBuffers demoBufs 5).length :=
  ⟨by decide, (flushLargestBuffers_behavior demoBufs 40).1 (by decide), by decide,
   by decide, ((flushLargestBuffers_behavior demoBufs 5).2 (by decide)).1⟩

/-! ## The compaction run: mapping, flushing, packing

A row carries the data the pipeline inspects: primary key, timestamp, and
clustering key. Buffers hold row lists so that both row counts (`NumOfRows`
is the length of the packed row list, matching the `flushedRowNum` counter)
and row membership can be stated. The concurrent schedule of segment
rotations and pressure flushes is modelled as a nondeterministic trace of
`Step`s, universally quantified in the theorems; per-buffer flush order is
serialized by the buffer's flush lock in the code, so a rotation and the
flush of its retired writer form one atomic step here. -/

structure Row where
  pk : Nat
  ts : Nat
  key : Nat
deriving DecidableEq, Repr

/-- Modelled from the spec: `compaction.EntityFilter` (external collaborator,
§2 of the spec) — given the delete set composed from the segment's deltalogs
and a TTL cutoff evaluated against the `currentTime` snapshot taken at init,
a row is dropped iff its primary key is in the delete set or its timestamp is
older than the cutoff. -/
def entityFiltered (deleteSet : List Nat) (ttlCutoff : Nat) (r : Row) : Bool :=
  decide (r.pk ∈ deleteSet) || decide (r.ts < ttlCutoff)

/-- One `ClusterBuffer` (clustering_compactor.go, lines 113-132).
`writerRows` is the content of the active segment writer; `flushedRows s` is
the accumulated flushed data of output segment `s` (its length is the
`flushedRowNum` counter, which the code never clears); `flushedBinlogs` is
the key set of the `flushedBinlogs` map (segments with binlog descriptors
present); `uploaded` is `uploadedSegments` as pairs of segment id and packed
rows. -/
structure ClusterBuffer where
  segId : Nat
  writerRows : List Row
  flushedRows : Nat → List Row
  flushedBinlogs : List Nat
  uploaded : List (Nat × List Row)

/-- Embedding of `writeToBuffer` (lines 750-766): append the row to the active writer. -/
def bufWrite (r : Row) (b : ClusterBuffer) : ClusterBuffer :=
  { b with writerRows := b.writerRows ++ [r] }

/-- Go map insertion of a key (`buffer.flushedBinlogs[segmentID] = ...`),
on the key set. -/
def insertSegId (s : Nat) (l : List Nat) : List Nat :=
  if s ∈ l then l else l ++ [s]

/-- Embedding of `packBufferToSegment` (lines 912-985): a no-op unless the buffer has
flushed binlogs for `segId`; otherwise emit an output segment whose row count
is the flushed row count of `segId` and delete the flushed-binlog entry (the
flushed-row counter is not deleted, mirroring the code). -/
def packBufferToSegment (b : ClusterBuffer) (segId : Nat) : ClusterBuffer :=
  if segId ∈ b.flushedBinlogs then
    { b with flushedBinlogs := b.flushedBinlogs.erase segId,
             uploaded := b.uploaded ++ [(segId, b.flushedRows segId)] }
  else b

/-- Embedding of `flushBinlog` (lines 987-1083) applied to a buffer whose active writer
has already been swapped out, persisting the retired writer (`wRows` rows of
segment `wSeg`): an empty writer skips serialization but still packs when
asked; otherwise the rows are appended to the segment's flushed data, the
segment is recorded in the flushed-binlog map, and the segment is packed when
`pack` is set. -/
def flushBinlog (b : ClusterBuffer) (wSeg : Nat) (wRows : List Row)
    (pack : Bool) : ClusterBuffer :=
  if wRows.isEmpty then
    (if pack then packBufferToSegment b wSeg else b)
  else
    let b1 := { b with
      flushedRows := fun s => if s = wSeg then b.flushedRows s ++ wRows else b.flushedRows s,
      flushedBinlogs := insertSegId wSeg b.flushedBinlogs }
    if pack then packBufferToSegment b1 wSeg else b1

/-- Embedding of `refreshBufferWriter` plus the pack-less flush of the retired writer
(`flushLargestBuffers`, lines 851-874, and the `IsFull` rotation that keeps
the segment id): a fresh writer for the same segment replaces the retired
one, which is persisted without packing. -/
def bufFlushNoPack (b : ClusterBuffer) : ClusterBuffer :=
  flushBinlog { b with writerRows := [] } b.segId b.writerRows false

/-- Embedding of `refreshBufferWriterWithPack` at a segment rotation (`mappingSegment`
lines 670-697 with lines 1315-1339) plus the pack-flush of the retired
writer: a new segment id is allocated for the fresh writer, and the retired
writer is persisted and its segment packed. -/
def bufRotatePack (b : ClusterBuffer) (newSeg : Nat) : ClusterBuffer :=
  flushBinlog { b with segId := newSeg, writerRows := [] } b.segId b.writerRows true

/-- The `flushAll` treatment of one buffer (lines 889-910): the current
writer is persisted with `pack = true`. The code leaves the dead writer in
place; the model clears it, since the run ends here and the writer's rows
are now flushed. -/
def bufFinal (b : ClusterBuffer) : ClusterBuffer :=
  flushBinlog { b with writerRows := [] } b.segId b.writerRows true

/-- One event of a compaction run: a row decoded by `mappingSegment` (written
to its assigned buffer unless filtered), a pressure flush of buffer `i`
without rotation of the segment id, or a segment rotation of buffer `i` to a
freshly allocated segment id. -/
inductive Step where
  | row (r : Row)
  | flush (i : Nat)
  | rotate (i : Nat) (newSeg : Nat)

/-- The pool of cluster buffers, indexed by buffer id (ids equal creation
positions). -/
abbrev TaskState := Nat → ClusterBuffer

def applyStep (assign : Row → Nat) (flt : Row → Bool) (s : TaskState) :
    Step → TaskState
  | .row r =>
      if flt r then s
      else fun j => if j = assign r then bufWrite r (s (assign r)) else s j
  | .flush i => fun j => if j = i then bufFlushNoPack (s i) else s j
  | .rotate i newSeg => fun j => if j = i then bufRotatePack (s i) newSeg else s j

def runSteps (assign : Row → Nat) (flt : Row → Bool) :
    TaskState → List Step → TaskState
  | s, [] => s
  | s, st :: rest => runSteps assign flt (applyStep assign flt s st) rest

/-- Embedding of `flushAll` (lines 889-910): force-flush and pack every buffer. -/
def flushAll (s : TaskState) : TaskState := fun i => bufFinal (s i)

/-- Buffers as created by the analyze stage: empty, each with its initial
segment id. -/
def initialState (segId0 : Nat → Nat) : TaskState := fun i =>
  { segId := segId0 i, writerRows := [], flushedRows := fun _ => [],
    flushedBinlogs := [], uploaded := [] }

/-- Embedding of `checkBuffersAfterCompaction` (lines 1360-1371): error iff some buffer
still has flushed binlogs. -/
def checkBuffersAfterCompaction (n : Nat) (s : TaskState) : Except String Unit :=
  if (List.range n).all (fun i => (s i).flushedBinlogs.isEmpty) then .ok ()
  else .error "there are some binlogs have leaked"

/-- The output segments collected from all buffers (`mapping`, lines
508-531). -/
def outputSegments (n : Nat) (s : TaskState) : List (Nat × List Row) :=
  (List.range n).flatMap fun i => (s i).uploaded

/-- Sum of `NumOfRows` over all output segments. -/
def totalOutputRows (n : Nat) (s : TaskState) : Nat :=
  ((outputSegments n s).map (fun p => p.2.length)).sum

/-- Freshness of a newly allocated segment id for a buffer (the allocator
hands out ids disjoint from all previously used ones). -/
def freshSeg (b : ClusterBuffer) (seg : Nat) : Prop :=
  seg ≠ b.segId ∧ seg ∉ b.flushedBinlogs ∧ seg ∉ b.uploaded.map Prod.fst ∧
    b.flushedRows seg = []

/-- Well-formed traces: rows the filter passes are assigned to existing
buffers, flush and rotate events target existing buffers, and rotations
carry a fresh segment id. -/
inductive WFRun (assign : Row → Nat) (flt : Row → Bool) (n : Nat) :
    TaskState → List Step → Prop
  | nil (s : TaskState) : WFRun assign flt n s []
  | row (s : TaskState) (r : Row) (rest : List Step) :
      (flt r = false → assign r < n) →
      WFRun assign flt n (applyStep assign flt s (.row r)) rest →
      WFRun assign flt n s (.row r :: rest)
  | flush (s : TaskState) (i : Nat) (rest : List Step) :
      i < n →
      WFRun assign flt n (applyStep assign flt s (.flush i)) rest →
      WFRun assign flt n s (.flush i :: rest)
  | rotate (s : TaskState) (i newSeg : Nat) (rest : List Step) :
      i < n → freshSeg (s i) newSeg →
      WFRun assign flt n (applyStep assign flt s (.rotate i newSeg)) rest →
      WFRun assign flt n s (.rotate i newSeg :: rest)

/-- The rows decoded during a trace, in decode order. -/
def stepRows : List Step → List Row
  | [] => []
  | .row r :: rest => r :: stepRows rest
  | .flush _ :: rest => stepRows rest
  | .rotate _ _ :: rest => stepRows rest

/-- The decoded rows that pass the entity filter (those actually written). -/
def writtenRows (flt : Row → Bool) (steps : List Step) : List Row :=
  (stepRows steps).filter (fun r => !flt r)

/-- All rows currently held by a buffer: active writer, flushed-but-unpacked
segments, and packed segments. -/
def bufRows (b : ClusterBuffer) : List Row :=
  b.writerRows ++ b.flushedBinlogs.flatMap b.flushedRows
    ++ b.uploaded.flatMap Prod.snd

/-- Control-flow invariant of a cluster buffer: flushed binlogs exist only
for the current writer's segment (every rotation packs the retired segment),
the current segment was never packed, and segments without flushed binlogs
that were never packed hold no flushed data. -/
def BufInv (b : ClusterBuffer) : Prop :=
  (b.flushedBinlogs = [] ∨ b.flushedBinlogs = [b.segId]) ∧
  b.segId ∉ b.uploaded.map Prod.fst ∧
  (∀ s, s ∉ b.flushedBinlogs → s ∉ b.uploaded.map Prod.fst → b.flushedRows s = [])

/-- Run invariant: every buffer satisfies its control-flow invariant and
holds exactly the rows assigned to it so far. -/
def GlobalInv (assign : Row → Nat) (n : Nat) (s : TaskState)
    (written : List Row) : Prop :=
  ∀ i, i < n → BufInv (s i) ∧
    (bufRows (s i)).Perm (written.filter (fun r => assign r == i))

lemma mem_insertSegId_self (s : Nat) (l : List Nat) : s ∈ insertSegId s l := by
  unfold insertSegId
  by_cases h : s ∈ l
  · rw [if_pos h]; exact h
  · rw [if_neg h]; exact List.mem_append_right _ (List.mem_singleton_self s)

lemma not_mem_of_not_mem_insertSegId {x s : Nat} {l : List Nat}
    (h : x ∉ insertSegId s l) : x ∉ l := by
  intro hx
  apply h
  unfold insertSegId
  by_cases hs : s ∈ l
  · rw [if_pos hs]; exact hx
  · rw [if_neg hs]; exact List.mem_append_left _ hx

lemma perm_snoc_middle (w F U : List Row) (r : Row) :
    ((w ++ [r]) ++ F ++ U).Perm ((w ++ F ++ U) ++ [r]) := by
  have e1 : (w ++ [r]) ++ F ++ U = w ++ ([r] ++ (F ++ U)) := by
    simp [List.append_assoc]
  have e2 : (w ++ F ++ U) ++ [r] = w ++ ((F ++ U) ++ [r]) := by
    simp [List.append_assoc]
  rw [e1, e2]
  exact List.Perm.append_left w List.perm_append_comm

lemma bufWrite_inv {b : ClusterBuffer} (r : Row) (h : BufInv b) :
    BufInv (bufWrite r b) := h

lemma bufWrite_rows (r : Row) (b : ClusterBuffer) :
    (bufRows (bufWrite r b)).Perm (bufRows b ++ [r]) := by
  unfold bufRows bufWrite
  exact perm_snoc_middle _ _ _ r

lemma flushNoPack_eq_empty (b : ClusterBuffer) (hw : b.writerRows = []) :
    bufFlushNoPack b = { b with writerRows := [] } := by
  unfold bufFlushNoPack flushBinlog
  rw [hw]
  simp

lemma flushNoPack_eq_nonempty (b : ClusterBuffer) (hw : ¬ b.writerRows = []) :
    bufFlushNoPack b = { b with
      writerRows := []
      flushedRows := fun s =>
        if s = b.segId then b.flushedRows s ++ b.writerRows else b.flushedRows s
      flushedBinlogs := insertSegId b.segId b.flushedBinlogs } := by
  unfold bufFlushNoPack flushBinlog
  rw [if_neg (fun h => hw (List.isEmpty_iff.mp h))]
  simp

lemma flushPack_eq_empty_notin (b : ClusterBuffer) (ns : Nat)
    (hw : b.writerRows = []) (hS : b.segId ∉ b.flushedBinlogs) :
    flushBinlog { b with segId := ns, writerRows := [] } b.segId b.writerRows true
      = { b with segId := ns, writerRows := [] } := by
  unfold flushBinlog packBufferToSegment
  rw [hw]
  simp [hS]

lemma flushPack_eq_empty_in (b : ClusterBuffer) (ns : Nat)
    (hw : b.writerRows = []) (hS : b.segId ∈ b.flushedBinlogs) :
    flushBinlog { b with segId := ns, writerRows := [] } b.segId b.writerRows true
      = { b with
          segId := ns
          writerRows := []
          flushedBinlogs := b.flushedBinlogs.erase b.segId
          uploaded := b.uploaded ++ [(b.segId, b.flushedRows b.segId)] } := by
  unfold flushBinlog packBufferToSegment
  rw [hw]
  simp [hS]

lemma flushPack_eq_nonempty (b : ClusterBuffer) (ns : Nat)
    (hw : ¬ b.writerRows = []) :
    flushBinlog { b with segId := ns, writerRows := [] } b.segId b.writerRows true
      = { b with
          segId := ns
          writerRows := []
          flushedRows := fun s =>
            if s = b.segId then b.flushedRows s ++ b.writerRows else b.flushedRows s
          flushedBinlogs := (insertSegId b.segId b.flushedBinlogs).erase b.segId
          uploaded := b.uploaded ++ [(b.segId, b.flushedRows b.segId ++ b.writerRows)] } := by
  unfold flushBinlog packBufferToSegment
  rw [if_neg (fun h => hw (List.isEmpty_iff.mp h))]
  simp [mem_insertSegId_self]

lemma insertSegId_nil (s : Nat) : insertSegId s [] = [s] := by
  simp [insertSegId]

lemma insertSegId_singleton_self (s : Nat) : insertSegId s [s] = [s] := by
  simp [insertSegId]

lemma perm_swap_heads (x y z : List Row) : (x ++ (y ++ z)).Perm (y ++ (x ++ z)) := by
  rw [← List.append_assoc, ← List.append_assoc]
  exact List.Perm.append_right z List.perm_append_comm

lemma bufFlushNoPack_spec {b : ClusterBuffer} (h : BufInv b) :
    BufInv (bufFlushNoPack b) ∧ (bufRows (bufFlushNoPack b)).Perm (bufRows b) := by
  obtain ⟨hB, hU, hR⟩ := h
  by_cases hw : b.writerRows = []
  · rw [flushNoPack_eq_empty b hw]
    refine ⟨⟨hB, hU, hR⟩, ?_⟩
    unfold bufRows
    rw [hw]
  · rw [flushNoPack_eq_nonempty b hw]
    refine ⟨⟨?_, hU, ?_⟩, ?_⟩
    · right
      rcases hB with hB | hB
      · rw [hB, insertSegId_nil]
      · rw [hB, insertSegId_singleton_self]
    · intro s hs1 hs2
      have hsB : s ∉ b.flushedBinlogs := not_mem_of_not_mem_insertSegId hs1
      have hsS : s ≠ b.segId := fun hEq => hs1 (hEq ▸ mem_insertSegId_self _ _)
      simpa [if_neg hsS] using hR s hsB hs2
    · unfold bufRows
      rcases hB with hB | hB
      · have hfS : b.flushedRows b.segId = [] :=
          hR _ (by rw [hB]; exact List.not_mem_nil _) hU
        rw [hB, insertSegId_nil]
        simp [hfS]
      · rw [hB, insertSegId_singleton_self]
        simp only [List.flatMap_cons, List.flatMap_nil, List.append_nil,
          List.nil_append, if_pos]
        rw [List.append_assoc, List.append_assoc]
        exact perm_swap_heads _ _ _

lemma not_mem_append_pair {ns S : Nat} {U : List Nat}
    (h1 : ns ∉ U) (h2 : ns ≠ S) : ns ∉ U ++ [S] := by
  intro hmem
  rcases List.mem_append.mp hmem with h | h
  · exact h1 h
  · exact h2 (by simpa using h)

lemma bufRotatePack_spec {b : ClusterBuffer} {ns : Nat} (h : BufInv b)
    (hf : freshSeg b ns) :
    BufInv (bufRotatePack b ns) ∧ (bufRows (bufRotatePack b ns)).Perm (bufRows b) := by
  obtain ⟨hB, hU, hR⟩ := h
  obtain ⟨hfS, hfB, hfU, hfR⟩ := hf
  unfold bufRotatePack
  by_cases hw : b.writerRows = []
  · rcases hB with hB | hB
    · rw [flushPack_eq_empty_notin b ns hw (by rw [hB]; exact List.not_mem_nil _)]
      refine ⟨⟨Or.inl hB, hfU, hR⟩, ?_⟩
      unfold bufRows
      rw [hw]
    · rw [flushPack_eq_empty_in b ns hw (by rw [hB]; exact List.mem_singleton_self _)]
      refine ⟨⟨?_, ?_, ?_⟩, ?_⟩
      · left
        rw [hB]
        simp
      · show ns ∉ (b.uploaded ++ [(b.segId, b.flushedRows b.segId)]).map Prod.fst
        rw [List.map_append]
        exact not_mem_append_pair hfU hfS
      · intro s hs1 hs2
        rw [List.map_append] at hs2
        have hsU : s ∉ b.uploaded.map Prod.fst := fun hx => hs2 (List.mem_append_left _ hx)
        have hsS : s ≠ b.segId := by
          intro hEq
          exact hs2 (List.mem_append_right _ (by simp [hEq]))
        exact hR s (by rw [hB]; simpa using hsS) hsU
      · unfold bufRows
        rw [hw, hB]
        simp only [List.flatMap_cons, List.flatMap_nil, List.flatMap_append,
          List.append_nil, List.nil_append, List.erase_cons_head]
        exact List.perm_append_comm
  · rw [flushPack_eq_nonempty b ns hw]
    have hbin : (insertSegId b.segId b.flushedBinlogs).erase b.segId = [] := by
      rcases hB with hB | hB
      · rw [hB, insertSegId_nil]; simp
      · rw [hB, insertSegId_singleton_self]; simp
    refine ⟨⟨Or.inl hbin, ?_, ?_⟩, ?_⟩
    · show ns ∉ (b.uploaded ++ [(b.segId, b.flushedRows b.segId ++ b.writerRows)]).map Prod.fst
      rw [List.map_append]
      exact not_mem_append_pair hfU hfS
    · intro s hs1 hs2
      rw [List.map_append] at hs2
      have hsU : s ∉ b.uploaded.map Prod.fst := fun hx => hs2 (List.mem_append_left _ hx)
      have hsS : s ≠ b.segId := by
        intro hEq
        exact hs2 (List.mem_append_right _ (by simp [hEq]))
      have hsB : s ∉ b.flushedBinlogs := by
        rcases hB with hB | hB
        · rw [hB]; exact List.not_mem_nil _
        · rw [hB]; simpa using hsS
      simpa [if_neg hsS] using hR s hsB hsU
    · unfold bufRows
      rw [hbin]
      rcases hB with hB | hB
      · have hfSrows : b.flushedRows b.segId = [] :=
          hR _ (by rw [hB]; exact List.not_mem_nil _) hU
        rw [hB]
        simp only [List.flatMap_cons, List.flatMap_nil, List.flatMap_append,
          List.append_nil, List.nil_append, hfSrows]
        exact List.perm_append_comm
      · rw [hB]
        simp only [List.flatMap_cons, List.flatMap_nil, List.flatMap_append,
          List.append_nil, List.nil_append]
        refine List.Perm.trans List.perm_append_comm ?_
        simpa [List.append_assoc] using
          perm_swap_heads (b.flushedRows b.segId) b.writerRows
            (b.uploaded.flatMap Prod.snd)

lemma bufFinal_spec {b : ClusterBuffer} (h : BufInv b) :
    (bufFinal b).flushedBinlogs = [] ∧ (bufFinal b).writerRows = [] ∧
    (bufRows (bufFinal b)).Perm (bufRows b) := by
  obtain ⟨hB, hU, hR⟩ := h
  unfold bufFinal
  by_cases hw : b.writerRows = []
  · rcases hB with hB | hB
    · rw [flushPack_eq_empty_notin b b.segId hw (by rw [hB]; exact List.not_mem_nil _)]
      refine ⟨hB, rfl, ?_⟩
      unfold bufRows
      rw [hw]
    · rw [flushPack_eq_empty_in b b.segId hw
        (by rw [hB]; exact List.mem_singleton_self _)]
      refine ⟨by rw [hB]; simp, rfl, ?_⟩
      unfold bufRows
      rw [hw, hB]
      simp only [List.flatMap_cons, List.flatMap_nil, List.flatMap_append,
        List.append_nil, List.nil_append, List.erase_cons_head]
      exact List.perm_append_comm
  · rw [flushPack_eq_nonempty b b.segId hw]
    have hbin : (insertSegId b.segId b.flushedBinlogs).erase b.segId = [] := by
      rcases hB with hB | hB
      · rw [hB, insertSegId_nil]; simp
      · rw [hB, insertSegId_singleton_self]; simp
    refine ⟨hbin, rfl, ?_⟩
    unfold bufRows
    rw [hbin]
    rcases hB with hB | hB
    · have hfSrows : b.flushedRows b.segId = [] :=
        hR _ (by rw [hB]; exact List.not_mem_nil _) hU
      rw [hB]
      simp only [List.flatMap_cons, List.flatMap_nil, List.flatMap_append,
        List.append_nil, List.nil_append, hfSrows]
      exact List.perm_append_comm
    · rw [hB]
      simp only [List.flatMap_cons, List.flatMap_nil, List.flatMap_append,
        List.append_nil, List.nil_append]
      refine List.Perm.trans List.perm_append_comm ?_
      simpa [List.append_assoc] using
        perm_swap_heads (b.flushedRows b.segId) b.writerRows
          (b.uploaded.flatMap Prod.snd)

lemma bufRows_of_cleared {b : ClusterBuffer} (h1 : b.writerRows = [])
    (h2 : b.flushedBinlogs = []) :
    bufRows b = b.uploaded.flatMap Prod.snd := by
  unfold bufRows
  rw [h1, h2]
  simp

lemma writtenRows_nil (flt : Row → Bool) : writtenRows flt [] = [] := rfl

lemma writtenRows_cons_row (flt : Row → Bool) (r : Row) (rest : List Step) :
    writtenRows flt (.row r :: rest)
      = (if flt r then [] else [r]) ++ writtenRows flt rest := by
  unfold writtenRows
  rw [show stepRows (.row r :: rest) = r :: stepRows rest from rfl, List.filter_cons]
  cases hf : flt r <;> simp [hf]

lemma writtenRows_cons_flush (flt : Row → Bool) (i : Nat) (rest : List Step) :
    writtenRows flt (.flush i :: rest) = writtenRows flt rest := rfl

lemma writtenRows_cons_rotate (flt : Row → Bool) (i ns : Nat) (rest : List Step) :
    writtenRows flt (.rotate i ns :: rest) = writtenRows flt rest := rfl

lemma globalInv_initial (assign : Row → Nat) (n : Nat) (segId0 : Nat → Nat) :
    GlobalInv assign n (initialState segId0) [] := by
  intro i hi
  refine ⟨⟨Or.inl rfl, ?_, ?_⟩, ?_⟩
  · simp [initialState]
  · intro s _ _; rfl
  · simp [bufRows, initialState]

lemma globalInv_write {assign : Row → Nat} {n : Nat} {s : TaskState}
    {written : List Row} (r : Row) (hInv : GlobalInv assign n s written) :
    GlobalInv assign n
      (fun j => if j = assign r then bufWrite r (s (assign r)) else s j)
      (written ++ [r]) := by
  intro i hi
  obtain ⟨hInvB, hPerm⟩ := hInv i hi
  dsimp only
  by_cases hij : i = assign r
  · have hij' : assign r = i := hij.symm
    rw [if_pos hij, hij']
    refine ⟨bufWrite_inv r hInvB, ?_⟩
    rw [List.filter_append]
    have hfr : (([r] : List Row).filter (fun x => assign x == i)) = [r] := by
      simp [hij']
    rw [hfr]
    exact (bufWrite_rows r (s i)).trans (hPerm.append_right [r])
  · rw [if_neg hij]
    refine ⟨hInvB, ?_⟩
    rw [List.filter_append]
    have hfr : (([r] : List Row).filter (fun x => assign x == i)) = [] := by
      simp
      intro h
      exact absurd h.symm hij
    rw [hfr, List.append_nil]
    exact hPerm

lemma globalInv_update {assign : Row → Nat} {n : Nat} {s : TaskState}
    {written : List Row} {i : Nat} {b : ClusterBuffer}
    (hInv : GlobalInv assign n s written)
    (hB : BufInv b) (hPerm : (bufRows b).Perm (bufRows (s i))) :
    GlobalInv assign n (fun j => if j = i then b else s j) written := by
  intro k hk
  obtain ⟨hInvB, hPermK⟩ := hInv k hk
  dsimp only
  by_cases hki : k = i
  · subst hki
    rw [if_pos rfl]
    exact ⟨hB, hPerm.trans hPermK⟩
  · rw [if_neg hki]
    exact ⟨hInvB, hPermK⟩

lemma runSteps_inv (assign : Row → Nat) (flt : Row → Bool) (n : Nat) :
    ∀ (steps : List Step) (s : TaskState) (written : List Row),
      WFRun assign flt n s steps →
      GlobalInv assign n s written →
      GlobalInv assign n (runSteps assign flt s steps)
        (written ++ writtenRows flt steps) := by
  intro steps
  induction steps with
  | nil =>
    intro s written _ hInv
    simpa [runSteps, writtenRows_nil] using hInv
  | cons st rest ih =>
    intro s written hWF hInv
    cases hWF with
    | row _ r _ hassign hWFrest =>
      rw [writtenRows_cons_row]
      show GlobalInv assign n
        (runSteps assign flt (applyStep assign flt s (.row r)) rest) _
      have happ0 : applyStep assign flt s (.row r)
          = if flt r then s
            else fun j => if j = assign r then bufWrite r (s (assign r)) else s j := rfl
      by_cases hf : flt r = true
      · have happ : applyStep assign flt s (.row r) = s := by
          rw [happ0, if_pos hf]
        rw [if_pos hf, List.nil_append, happ]
        rw [happ] at hWFrest
        exact ih s written hWFrest hInv
      · have hf' : flt r = false := by
          revert hf; cases flt r <;> simp
        have happ : applyStep assign flt s (.row r)
            = fun j => if j = assign r then bufWrite r (s (assign r)) else s j := by
          rw [happ0, if_neg hf]
        rw [if_neg hf]
        rw [← List.append_assoc]
        rw [happ] at hWFrest ⊢
        exact ih _ (written ++ [r]) hWFrest (globalInv_write r hInv)
    | flush _ i _ hi hWFrest =>
      rw [writtenRows_cons_flush]
      show GlobalInv assign n
        (runSteps assign flt (applyStep assign flt s (.flush i)) rest) _
      have happ : applyStep assign flt s (.flush i)
          = fun j => if j = i then bufFlushNoPack (s i) else s j := rfl
      rw [happ] at hWFrest ⊢
      obtain ⟨hBI, hP⟩ := bufFlushNoPack_spec (hInv i hi).1
      exact ih _ written hWFrest (globalInv_update hInv hBI hP)
    | rotate _ i ns _ hi hfresh hWFrest =>
      rw [writtenRows_cons_rotate]
      show GlobalInv assign n
        (runSteps assign flt (applyStep assign flt s (.rotate i ns)) rest) _
      have happ : applyStep assign flt s (.rotate i ns)
          = fun j => if j = i then bufRotatePack (s i) ns else s j := rfl
      rw [happ] at hWFrest ⊢
      obtain ⟨hBI, hP⟩ := bufRotatePack_spec (hInv i hi).1 hfresh
      exact ih _ written hWFrest (globalInv_update hInv hBI hP)

lemma flushAll_spec {assign : Row → Nat} {n : Nat} {s : TaskState}
    {written : List Row} (hInv : GlobalInv assign n s written) :
    ∀ i, i < n →
      ((flushAll s) i).flushedBinlogs = [] ∧
      (((flushAll s) i).uploaded.flatMap Prod.snd).Perm
        (written.filter (fun r => assign r == i)) := by
  intro i hi
  obtain ⟨hB, hPerm⟩ := hInv i hi
  obtain ⟨h1, h2, h3⟩ := bufFinal_spec hB
  refine ⟨h1, ?_⟩
  have hcleared := bufRows_of_cleared h2 h1
  show ((bufFinal (s i)).uploaded.flatMap Prod.snd).Perm _
  rw [← hcleared]
  exact h3.trans hPerm

lemma checkBuffers_ok_of_empty (n : Nat) (s : TaskState)
    (h : ∀ i, i < n → (s i).flushedBinlogs = []) :
    checkBuffersAfterCompaction n s = .ok () := by
  unfold checkBuffersAfterCompaction
  rw [if_pos]
  rw [List.all_eq_true]
  intro x hx
  rw [List.mem_range] at hx
  simp [h x hx]

lemma checkBuffers_error_of_nonempty (n : Nat) (s : TaskState)
    (h : ∃ i, i < n ∧ (s i).flushedBinlogs ≠ []) :
    checkBuffersAfterCompaction n s = .error "there are some binlogs have leaked" := by
  unfold checkBuffersAfterCompaction
  rw [if_neg]
  intro hall
  rw [List.all_eq_true] at hall
  obtain ⟨i, hi, hne⟩ := h
  exact hne (List.isEmpty_iff.mp (hall i (List.mem_range.mpr hi)))

lemma wfRun_written_assign_lt (assign : Row → Nat) (flt : Row → Bool) (n : Nat) :
    ∀ (steps : List Step) (s : TaskState), WFRun assign flt n s steps →
      ∀ r ∈ writtenRows flt steps, assign r < n := by
  intro steps
  induction steps with
  | nil =>
    intro s _ r hr
    simp [writtenRows, stepRows] at hr
  | cons st rest ih =>
    intro s hWF r hr
    cases hWF with
    | row _ rr _ hassign hrest =>
      rw [writtenRows_cons_row] at hr
      rcases List.mem_append.mp hr with h | h
      · by_cases hf : flt rr = true
        · rw [if_pos hf] at h
          simp at h
        · rw [if_neg hf] at h
          have hrr : r = rr := by simpa using h
          subst hrr
          exact hassign (by revert hf; cases flt r <;> simp)
      · exact ih _ hrest r h
    | flush _ i _ hi hrest =>
      rw [writtenRows_cons_flush] at hr
      exact ih _ hrest r hr
    | rotate _ i ns _ hi hfresh hrest =>
      rw [writtenRows_cons_rotate] at hr
      exact ih _ hrest r hr

lemma wfRun_append_left (assign : Row → Nat) (flt : Row → Bool) (n : Nat) :
    ∀ (pre post : List Step) (s : TaskState),
      WFRun assign flt n s (pre ++ post) → WFRun assign flt n s pre := by
  intro pre
  induction pre with
  | nil => intro post s _; exact WFRun.nil s
  | cons st rest ih =>
    intro post s hWF
    cases hWF with
    | row _ r _ ha hrest => exact WFRun.row _ _ _ ha (ih post _ hrest)
    | flush _ i _ hi hrest => exact WFRun.flush _ _ _ hi (ih post _ hrest)
    | rotate _ i ns _ hi hf hrest => exact WFRun.rotate _ _ _ _ hi hf (ih post _ hrest)

lemma sum_map_add_distrib (f g : Nat → Nat) :
    ∀ l : List Nat, (l.map (fun i => f i + g i)).sum = (l.map f).sum + (l.map g).sum := by
  intro l
  induction l with
  | nil => simp
  | cons x t ih =>
    simp only [List.map_cons, List.sum_cons, ih]
    omega

lemma sum_indicator_ge (k : Nat) :
    ∀ n : Nat, n ≤ k →
      ((List.range n).map (fun i => if k == i then 1 else 0)).sum = 0 := by
  intro n
  induction n with
  | zero => intro _; simp
  | succ m ih =>
    intro h
    rw [List.range_succ, List.map_append, List.sum_append, ih (by omega)]
    have hne : (k == m) = false := by
      simp only [beq_eq_false_iff_ne, ne_eq]
      omega
    simp only [List.map_cons, List.map_nil, List.sum_cons, List.sum_nil, hne]
    simp

lemma sum_indicator (k : Nat) :
    ∀ n : Nat, k < n →
      ((List.range n).map (fun i => if k == i then 1 else 0)).sum = 1 := by
  intro n
  induction n with
  | zero => intro h; omega
  | succ m ih =>
    intro h
    rw [List.range_succ, List.map_append, List.sum_append]
    by_cases hk : k < m
    · rw [ih hk]
      have hne : (k == m) = false := by
        simp only [beq_eq_false_iff_ne, ne_eq]
        omega
      simp only [List.map_cons, List.map_nil, List.sum_cons, List.sum_nil, hne]
      simp
    · have hkm : k = m := by omega
      rw [sum_indicator_ge k m (by omega)]
      simp [hkm]

lemma sum_filter_classes (assign : Row → Nat) :
    ∀ (l : List Row) (n : Nat), (∀ r ∈ l, assign r < n) →
      ((List.range n).map
          (fun i => (l.filter (fun r => assign r == i)).length)).sum = l.length := by
  intro l
  induction l with
  | nil => intro n _; simp
  | cons r t ih =>
    intro n h
    have hmap : (List.range n).map
          (fun i => ((r :: t).filter (fun x => assign x == i)).length)
        = (List.range n).map (fun i =>
            (if assign r == i then 1 else 0)
              + (t.filter (fun x => assign x == i)).length) := by
      apply List.map_congr_left
      intro i _
      rw [List.filter_cons]
      by_cases hc : (assign r == i) = true
      · rw [if_pos hc, if_pos hc, List.length_cons]
        omega
      · rw [if_neg hc, if_neg hc]
        omega
    rw [hmap, sum_map_add_distrib,
      ih n (fun x hx => h x (List.mem_cons_of_mem _ hx)),
      sum_indicator (assign r) n (h r (List.mem_cons_self _ _)), List.length_cons]
    omega

lemma sum_flatMap_nat {α : Type} (l : List α) (f : α → List Nat) :
    (l.flatMap f).sum = (l.map (fun x => (f x).sum)).sum := by
  induction l with
  | nil => simp
  | cons x t ih => simp [List.flatMap_cons, List.sum_append, ih]

lemma totalOutputRows_eq (n : Nat) (s : TaskState) :
    totalOutputRows n s
      = ((List.range n).map (fun i => ((s i).uploaded.flatMap Prod.snd).length)).sum := by
  unfold totalOutputRows outputSegments
  rw [List.map_flatMap, sum_flatMap_nat]
  apply congrArg
  apply List.map_congr_left
  intro i _
  rw [List.length_flatMap]
  apply congrArg
  apply List.map_congr_left
  intro p _
  rfl

/-- C1: for every compaction run (any interleaving of row decoding, pressure
flushes and segment rotations) whose input contains no delete records and no
TTL-expired rows, the run passes the post-run check and the sum of `NumOfRows`
over all output segments equals the number of rows decoded from the input
segments. -/
theorem compaction_row_conservation
    (n : Nat) (assign : Row → Nat) (segId0 : Nat → Nat) (deleteSet : List Nat)
    (ttlCutoff : Nat) (steps : List Step) (inputRows : List Row)
    (hWF : WFRun assign (entityFiltered deleteSet ttlCutoff) n
      (initialState segId0) steps)
    (hrows : stepRows steps = inputRows)
    (hnodelete : deleteSet = [])
    (hnoexpire : ∀ r ∈ inputRows, ttlCutoff ≤ r.ts) :
    checkBuffersAfterCompaction n
        (flushAll (runSteps assign (entityFiltered deleteSet ttlCutoff)
          (initialState segId0) steps)) = .ok () ∧
    totalOutputRows n
        (flushAll (runSteps assign (entityFiltered deleteSet ttlCutoff)
          (initialState segId0) steps)) = inputRows.length := by
  have hfltfalse : ∀ r ∈ inputRows, entityFiltered deleteSet ttlCutoff r = false := by
    intro r hr
    subst hnodelete
    have hts : ¬ r.ts < ttlCutoff := Nat.not_lt.mpr (hnoexpire r hr)
    simp [entityFiltered, hts]
  have hwritten : writtenRows (entityFiltered deleteSet ttlCutoff) steps = inputRows := by
    unfold writtenRows
    rw [hrows, List.filter_eq_self]
    intro r hr
    simp [hfltfalse r hr]
  have hInv := runSteps_inv assign (entityFiltered deleteSet ttlCutoff) n steps
    (initialState segId0) [] hWF (globalInv_initial assign n segId0)
  rw [List.nil_append, hwritten] at hInv
  have hfinal := flushAll_spec hInv
  constructor
  · exact checkBuffers_ok_of_empty n _ (fun i hi => (hfinal i hi).1)
  · rw [totalOutputRows_eq]
    have hassignlt : ∀ r ∈ inputRows, assign r < n := by
      have hlt := wfRun_written_assign_lt assign (entityFiltered deleteSet ttlCutoff)
        n steps _ hWF
      rw [hwritten] at hlt
      exact hlt
    rw [← sum_filter_classes assign inputRows n hassignlt]
    apply congrArg
    apply List.map_congr_left
    intro i hi
    rw [List.mem_range] at hi
    exact ((hfinal i hi).2).length_eq

/-- C1 witness: a one-row run on one buffer with no deletes and no TTL
expiry conserves the row count. -/
theorem compaction_row_conservation_witness :
    checkBuffersAfterCompaction 1
        (flushAll (runSteps (fun _ => 0) (entityFiltered [] 0)
          (initialState (fun _ => 100)) [.row { pk := 1, ts := 5, key := 0 }]))
      = .ok () ∧
    totalOutputRows 1
        (flushAll (runSteps (fun _ => 0) (entityFiltered [] 0)
          (initialState (fun _ => 100)) [.row { pk := 1, ts := 5, key := 0 }]))
      = ([{ pk := 1, ts := 5, key := 0 }] : List Row).length :=
  compaction_row_conservation 1 (fun _ => 0) (fun _ => 100) [] 0
    [.row { pk := 1, ts := 5, key := 0 }] [{ pk := 1, ts := 5, key := 0 }]
    (WFRun.row _ _ _ (fun _ => Nat.zero_lt_one) (WFRun.nil _))
    rfl rfl (fun _ _ => Nat.zero_le _)

/-- C2: after any run, every buffer's flushed-binlog mapping is empty, so the
post-run check succeeds; conversely, on any state where some buffer's mapping
is non-empty, `checkBuffersAfterCompaction` returns an error instead of
success. -/
theorem post_run_flushed_binlogs_empty
    (n : Nat) (assign : Row → Nat) (flt : Row → Bool) (segId0 : Nat → Nat)
    (steps : List Step)
    (hWF : WFRun assign flt n (initialState segId0) steps) :
    (∀ i, i < n →
      ((flushAll (runSteps assign flt (initialState segId0) steps)) i).flushedBinlogs
        = []) ∧
    checkBuffersAfterCompaction n
      (flushAll (runSteps assign flt (initialState segId0) steps)) = .ok () ∧
    (∀ (s : TaskState) (m : Nat), (∃ i, i < m ∧ (s i).flushedBinlogs ≠ []) →
      checkBuffersAfterCompaction m s
        = .error "there are some binlogs have leaked") := by
  have hInv := runSteps_inv assign flt n steps _ [] hWF (globalInv_initial assign n segId0)
  have hfinal := flushAll_spec hInv
  exact ⟨fun i hi => (hfinal i hi).1,
    checkBuffers_ok_of_empty n _ (fun i hi => (hfinal i hi).1),
    fun s m h => checkBuffers_error_of_nonempty m s h⟩

/-- C2 witness: the post-run check succeeds on a concrete run, and a state
with a leaked flushed binlog is rejected. -/
theorem post_run_flushed_binlogs_empty_witness :
    checkBuffersAfterCompaction 1
        (flushAll (runSteps (fun _ => 0) (fun _ => false)
          (initialState (fun _ => 100)) [])) = .ok () :=
  (post_run_flushed_binlogs_empty 1 (fun _ => 0) (fun _ => false) (fun _ => 100) []
    (WFRun.nil _)).2.1

/-- C7: in every run, a row that the entity filter marks as deleted or
expired is never present in any cluster buffer at any point of the run and
appears in no output segment. -/
theorem filtered_rows_never_in_output
    (n : Nat) (assign : Row → Nat) (segId0 : Nat → Nat) (deleteSet : List Nat)
    (ttlCutoff : Nat) (steps : List Step)
    (hWF : WFRun assign (entityFiltered deleteSet ttlCutoff) n
      (initialState segId0) steps) :
    ∀ r : Row, entityFiltered deleteSet ttlCutoff r = true →
      (∀ seg ∈ outputSegments n
          (flushAll (runSteps assign (entityFiltered deleteSet ttlCutoff)
            (initialState segId0) steps)), r ∉ seg.2) ∧
      (∀ pre post, steps = pre ++ post → ∀ i, i < n →
        r ∉ bufRows ((runSteps assign (entityFiltered deleteSet ttlCutoff)
          (initialState segId0) pre) i)) := by
  intro r hr
  have hrw : ∀ (st : List Step),
      r ∉ writtenRows (entityFiltered deleteSet ttlCutoff) st := by
    intro st hmem
    unfold writtenRows at hmem
    rw [List.mem_filter] at hmem
    have hfalse : entityFiltered deleteSet ttlCutoff r = false := by
      simpa using hmem.2
    rw [hr] at hfalse
    exact Bool.noConfusion hfalse
  constructor
  · intro seg hseg hrin
    unfold outputSegments at hseg
    rw [List.mem_flatMap] at hseg
    obtain ⟨i, hirange, hsegmem⟩ := hseg
    rw [List.mem_range] at hirange
    have hInv := runSteps_inv assign (entityFiltered deleteSet ttlCutoff) n steps
      (initialState segId0) [] hWF (globalInv_initial assign n segId0)
    rw [List.nil_append] at hInv
    have hfinal := flushAll_spec hInv
    have hperm := (hfinal i hirange).2
    have hrflat : r ∈ (((flushAll (runSteps assign (entityFiltered deleteSet ttlCutoff)
        (initialState segId0) steps)) i).uploaded.flatMap Prod.snd) := by
      rw [List.mem_flatMap]
      exact ⟨seg, hsegmem, hrin⟩
    exact hrw steps (List.mem_of_mem_filter (hperm.mem_iff.mp hrflat))
  · intro pre post hsplit i hi hmem
    have hWFpre : WFRun assign (entityFiltered deleteSet ttlCutoff) n
        (initialState segId0) pre :=
      wfRun_append_left assign (entityFiltered deleteSet ttlCutoff) n pre post _
        (hsplit ▸ hWF)
    have hInvPre := runSteps_inv assign (entityFiltered deleteSet ttlCutoff) n pre
      (initialState segId0) [] hWFpre (globalInv_initial assign n segId0)
    rw [List.nil_append] at hInvPre
    have hperm := (hInvPre i hi).2
    exact hrw pre (List.mem_of_mem_filter (hperm.mem_iff.mp hmem))

/-- C7 witness: in a concrete run with delete set {1}, the deleted row with
primary key 1 appears in no output segment. -/
theorem filtered_rows_never_in_output_witness :
    ({ pk := 1, ts := 5, key := 0 } : Row)
      ∉ (outputSegments 1
          (flushAll (runSteps (fun _ => 0) (entityFiltered [1] 0)
            (initialState (fun _ => 100))
            [.row { pk := 1, ts := 5, key := 0 },
             .row { pk := 2, ts := 5, key := 0 }]))).flatMap Prod.snd := by
  intro hmem
  rw [List.mem_flatMap] at hmem
  obtain ⟨seg, hseg, hrin⟩ := hmem
  exact ((filtered_rows_never_in_output 1 (fun _ => 0) (fun _ => 100) [1] 0
      [.row { pk := 1, ts := 5, key := 0 }, .row { pk := 2, ts := 5, key := 0 }]
      (WFRun.row _ _ _ (fun _ => Nat.zero_lt_one)
        (WFRun.row _ _ _ (fun _ => Nat.zero_lt_one) (WFRun.nil _))))
    { pk := 1, ts := 5, key := 0 } (by decide)).1 seg hseg hrin

end ClusteringCompaction
